import Mathlib

/-
Verification of the goRAG document question-answering backend.

The repository ships a Gin router (backend/main.go) wiring five components:
an embedding client, a vector index (ChromaDB), a document store, a
retrieval engine and an answer synthesizer.  The service implementations
(services/document.go, services/search.go, services/chromadb.go,
services/azure_openai.go and the handlers package) are not present in the
source tree, only their wiring in main.go; those components are modelled
here from the specification.  The CORS middleware and the route table are
embedded directly from backend/main.go.
-/

set_option autoImplicit false

namespace GoRag

/-- Error taxonomy of the spec (section 7): caller errors, provider
failures and vector-index failures. -/
inductive Err where
  | InvalidInput
  | NotFound
  | ProviderRejected
  | ProviderUnavailable
  | IndexUnavailable
deriving DecidableEq, Repr

/-- Observable outbound calls made by the components: an embedding-provider
call, a vector-index upsert, a vector-index delete, a generation-model
call.  Used to state frame conditions such as "no embedding call is made"
or "the generation model is never called". -/
inductive Event where
  | embedCall (text : String)
  | upsertCall (id : Nat)
  | deleteCall (id : Nat)
  | generateCall (prompt : String)
deriving DecidableEq, Repr

/-- Vector Index entry: `(id, vector, content, metadata)` (spec section 3). -/
structure Entry where
  id : Nat
  vector : List Int
  content : String
  metadata : List (String × String)
deriving DecidableEq, Repr

/-- Document: persisted unit of knowledge (spec section 3). -/
structure Document where
  id : Nat
  content : String
  metadata : List (String × String)
  embedding : List Int
  createdAt : Nat
  updatedAt : Nat
deriving DecidableEq, Repr

/-- Combined state of the document store and the vector index, with the
counter used to assign fresh document ids. -/
structure StoreState where
  docs : List Document
  index : List Entry
  nextId : Nat
deriving DecidableEq, Repr

/-- Modelled from the spec: the external collaborators of sections 4.1 and
6, which are missing from the source tree (services/azure_openai.go and
services/chromadb.go).  `embed` is the embedding provider, `generate` the
sibling generation model, `score` the provider-defined vector similarity,
and `indexUp` whether the vector index provider is reachable (when it is
not, index operations fail with `IndexUnavailable`). -/
structure Env where
  embed : String → Except Err (List Int)
  generate : String → Except Err String
  score : List Int → List Int → Int
  indexUp : Bool

/-- Result of a document-store mutation: outcome, resulting state, and the
trace of outbound calls that were attempted. -/
structure MutResult where
  out : Except Err Document
  state : StoreState
  events : List Event

/-- Result of a document-store delete. -/
structure DelResult where
  out : Except Err Unit
  state : StoreState
  events : List Event

/-- Modelled from the spec: vector-index `upsert` (section 4.2, missing
services/chromadb.go): inserts or replaces the entry for `id`; a provider
connectivity failure surfaces as `IndexUnavailable`. -/
def indexUpsert (e : Env) (idx : List Entry) (id : Nat) (v : List Int)
    (c : String) (m : List (String × String)) : Except Err (List Entry) :=
  if e.indexUp then
    .ok (⟨id, v, c, m⟩ :: idx.filter (fun en => !(en.id == id)))
  else
    .error .IndexUnavailable

/-- Modelled from the spec: vector-index `delete` (section 4.2, missing
services/chromadb.go): removes the entry; deleting a nonexistent id is not
an error. -/
def indexDelete (e : Env) (idx : List Entry) (id : Nat) : Except Err (List Entry) :=
  if e.indexUp then
    .ok (idx.filter (fun en => !(en.id == id)))
  else
    .error .IndexUnavailable

/-- Modelled from the spec: vector-index `get` (section 4.2, missing
services/chromadb.go); `none` stands for `NotFound`. -/
def indexGet (idx : List Entry) (id : Nat) : Option Entry :=
  idx.find? (fun en => en.id == id)

/-- Modelled from the spec: document-store `get` (section 4.3, missing
services/document.go); `none` stands for `NotFound`. -/
def storeGet (s : StoreState) (id : Nat) : Option Document :=
  s.docs.find? (fun d => d.id == id)

/-- Modelled from the spec: document-store `create` (section 4.3, missing
services/document.go): validates content non-empty, obtains the embedding,
assigns a fresh id, upserts into the vector index, and only then records
the document.  On any failure the state is left unchanged. -/
def create (e : Env) (s : StoreState) (content : String)
    (md : List (String × String)) (now : Nat) : MutResult :=
  if content = "" then
    ⟨.error .InvalidInput, s, []⟩
  else
    match e.embed content with
    | .error err => ⟨.error err, s, [.embedCall content]⟩
    | .ok v =>
      match indexUpsert e s.index s.nextId v content md with
      | .error err => ⟨.error err, s, [.embedCall content, .upsertCall s.nextId]⟩
      | .ok idx =>
        let d : Document := ⟨s.nextId, content, md, v, now, now⟩
        ⟨.ok d, ⟨d :: s.docs, idx, s.nextId + 1⟩, [.embedCall content, .upsertCall s.nextId]⟩

/-- Modelled from the spec: document-store `update` (section 4.3, missing
services/document.go): fails with `NotFound` for an unknown id; if the
content changes it recomputes the embedding and re-upserts; if only the
metadata changes it preserves the existing embedding and re-upserts with
the same vector and the new metadata, without an embedding call. -/
def update (e : Env) (s : StoreState) (id : Nat) (newContent : Option String)
    (newMeta : Option (List (String × String))) (now : Nat) : MutResult :=
  match storeGet s id with
  | none => ⟨.error .NotFound, s, []⟩
  | some d =>
    let c := newContent.getD d.content
    let m := newMeta.getD d.metadata
    if c = d.content then
      match indexUpsert e s.index d.id d.embedding d.content m with
      | .error err => ⟨.error err, s, [.upsertCall d.id]⟩
      | .ok idx =>
        let d2 : Document := ⟨d.id, d.content, m, d.embedding, d.createdAt, now⟩
        ⟨.ok d2, ⟨s.docs.map (fun x => if x.id = id then d2 else x), idx, s.nextId⟩,
          [.upsertCall d.id]⟩
    else
      match e.embed c with
      | .error err => ⟨.error err, s, [.embedCall c]⟩
      | .ok v =>
        match indexUpsert e s.index d.id v c m with
        | .error err => ⟨.error err, s, [.embedCall c, .upsertCall d.id]⟩
        | .ok idx =>
          let d2 : Document := ⟨d.id, c, m, v, d.createdAt, now⟩
          ⟨.ok d2, ⟨s.docs.map (fun x => if x.id = id then d2 else x), idx, s.nextId⟩,
            [.embedCall c, .upsertCall d.id]⟩

/-- Modelled from the spec: document-store `delete` (section 4.3, missing
services/document.go): fails with `NotFound` if the id is unknown;
otherwise deletes from the vector index first, then removes the document
record. -/
def deleteDoc (e : Env) (s : StoreState) (id : Nat) : DelResult :=
  match storeGet s id with
  | none => ⟨.error .NotFound, s, []⟩
  | some _ =>
    match indexDelete e s.index id with
    | .error err => ⟨.error err, s, [.deleteCall id]⟩
    | .ok idx =>
      ⟨.ok (), ⟨s.docs.filter (fun d => !(d.id == id)), idx, s.nextId⟩, [.deleteCall id]⟩

/-- Every stored document's embedding is the embedding of its current
content: the reachable-state invariant of the document store. -/
def DocsOk (e : Env) (s : StoreState) : Prop :=
  ∀ d, d ∈ s.docs → e.embed d.content = .ok d.embedding

/-- The vector index holds exactly one entry for `d.id`, that entry's
fields match `d`, and its vector is the embedding of `d`'s current
content. -/
def SyncAt (e : Env) (s : StoreState) (d : Document) : Prop :=
  indexGet s.index d.id = some ⟨d.id, d.embedding, d.content, d.metadata⟩ ∧
  s.index.countP (fun en => en.id == d.id) = 1 ∧
  e.embed d.content = .ok d.embedding

/-- Query: a question string plus optional metadata filter, optional topK
and optional relevance threshold (spec section 3). -/
structure Query where
  text : String
  filter : Option (List (String × String))
  topK : Option Nat
  threshold : Option Int
deriving DecidableEq, Repr

/-- RetrievedMatch: `(documentId, content, metadata, score)`; higher score
is more relevant (spec section 3). -/
structure RetrievedMatch where
  documentId : Nat
  content : String
  metadata : List (String × String)
  score : Int
deriving DecidableEq, Repr

/-- Process configuration, loaded once: default topK, relevance threshold,
prompt context budget (spec section 6). -/
structure Config where
  defaultTopK : Nat
  threshold : Int
  promptBudget : Nat
deriving DecidableEq, Repr

/-- A metadata mapping satisfies a filter when every exact-match predicate
of the (conjunctive) filter holds; an absent filter accepts everything. -/
def matchesFilter (f : Option (List (String × String)))
    (md : List (String × String)) : Bool :=
  match f with
  | none => true
  | some kvs => kvs.all (fun kv => md.contains kv)

/-- Ranking order of matches: score descending, ties broken by documentId
ascending (spec section 3). -/
def rankLE (a b : RetrievedMatch) : Bool :=
  b.score < a.score || (a.score == b.score && a.documentId ≤ b.documentId)

/-- Insert a match into a list sorted by `rankLE`. -/
def insertRanked (m : RetrievedMatch) : List RetrievedMatch → List RetrievedMatch
  | [] => [m]
  | x :: xs => if rankLE m x then m :: x :: xs else x :: insertRanked m xs

/-- Sort matches by `rankLE` (insertion sort, deterministic). -/
def sortRanked : List RetrievedMatch → List RetrievedMatch
  | [] => []
  | x :: xs => insertRanked x (sortRanked xs)

/-- Modelled from the spec: vector-index `query` (section 4.2, missing
services/chromadb.go): at most `topK` entries whose metadata satisfies the
filter, ordered by similarity score descending with ties broken by id
ascending; connectivity failure surfaces as `IndexUnavailable`. -/
def indexQuery (e : Env) (idx : List Entry) (v : List Int) (topK : Nat)
    (f : Option (List (String × String))) : Except Err (List RetrievedMatch) :=
  if e.indexUp then
    .ok ((sortRanked ((idx.filter (fun en => matchesFilter f en.metadata)).map
      (fun en => ⟨en.id, en.content, en.metadata, e.score v en.vector⟩))).take topK)
  else
    .error .IndexUnavailable

/-- Effective topK of a query: the query's own, or the configured default. -/
def effTopK (cfg : Config) (q : Query) : Nat :=
  q.topK.getD cfg.defaultTopK

/-- Effective relevance threshold of a query: the query's own, or the
configured default. -/
def effThreshold (cfg : Config) (q : Query) : Int :=
  q.threshold.getD cfg.threshold

/-- Modelled from the spec: the retrieval engine's `retrieve` (section 4.4,
missing services/search.go): embeds the query text, queries the vector
index with the effective topK and the pass-through filter, then drops
matches whose score is below the effective threshold; an emptied result is
returned as the empty list, not as an error. -/
def retrieve (e : Env) (cfg : Config) (idx : List Entry) (q : Query) :
    Except Err (List RetrievedMatch) :=
  let k := effTopK cfg q
  if k < 1 then
    .error .InvalidInput
  else
    match e.embed q.text with
    | .error err => .error err
    | .ok v =>
      match indexQuery e idx v k q.filter with
      | .error err => .error err
      | .ok ms => .ok (ms.filter (fun m => effThreshold cfg q ≤ m.score))

/-- Answer: the generated text plus the ordered documentIds whose content
was included in the prompt (spec section 3). -/
structure Answer where
  text : String
  sources : List Nat
deriving DecidableEq, Repr

/-- Modelled from the spec: the canned insufficient-context answer returned
without a generation call when no matches are available (section 4.5); the
exact wording is not fixed by the spec. -/
def cannedAnswer : String :=
  "I could not find sufficient context in the stored documents to answer this question."

/-- Keep the longest prefix of the ranked matches whose cumulative content
length fits the budget: lowest-ranked matches are dropped first. -/
def truncateMatches (budget : Nat) : List RetrievedMatch → List RetrievedMatch
  | [] => []
  | m :: ms =>
    if m.content.length ≤ budget then
      m :: truncateMatches (budget - m.content.length) ms
    else
      []

/-- Cumulative content length of a list of matches. -/
def contentLen (ms : List RetrievedMatch) : Nat :=
  (ms.map (fun m => m.content.length)).sum

/-- Prompt assembled from the question and the included matches' content,
in rank order. -/
def buildPrompt (question : String) (included : List RetrievedMatch) : String :=
  question ++ String.join (included.map (fun m => "\n" ++ m.content))

/-- Modelled from the spec: the answer synthesizer's `answer` (section 4.5,
missing services/search.go): with no matches it returns the canned answer
with empty sources and makes no generation call; otherwise it truncates the
matches to the content budget, invokes the generation model, and reports as
sources exactly the documentIds whose content survived truncation, in rank
order. -/
def answer (e : Env) (cfg : Config) (question : String)
    (ms : List RetrievedMatch) : Except Err Answer × List Event :=
  if ms.isEmpty then
    (.ok ⟨cannedAnswer, []⟩, [])
  else
    let included := truncateMatches cfg.promptBudget ms
    let prompt := buildPrompt question included
    match e.generate prompt with
    | .error err => (.error err, [.generateCall prompt])
    | .ok t => (.ok ⟨t, included.map (fun m => m.documentId)⟩, [.generateCall prompt])

/-- HTTP methods appearing in backend/main.go. -/
inductive Method where
  | get
  | post
  | put
  | delete
  | options
deriving DecidableEq, BEq, Repr

/-- The handlers registered in backend/main.go. -/
inductive HandlerTag where
  | createDocument
  | getDocument
  | updateDocument
  | deleteDocument
  | listDocuments
  | search
deriving DecidableEq, Repr

/-- The route table of backend/main.go, lines 35-42, in registration
order. -/
def routes : List (Method × String × HandlerTag) :=
  [(.post, "/documents", .createDocument),
   (.get, "/documents/:id", .getDocument),
   (.put, "/documents/:id", .updateDocument),
   (.delete, "/documents/:id", .deleteDocument),
   (.get, "/documents", .listDocuments),
   (.post, "/search", .search)]

/-- Split a character list at every slash. -/
def splitSlashAux : List Char → List Char → List String
  | [], acc => [String.mk acc.reverse]
  | c :: cs, acc =>
    if c = '/' then
      String.mk acc.reverse :: splitSlashAux cs []
    else
      splitSlashAux cs (c :: acc)

/-- Segments of a path string. -/
def pathSegs (p : String) : List String :=
  splitSlashAux p.data []

/-- Whether a pattern segment is a parameter segment such as `:id`. -/
def paramSeg (p : String) : Bool :=
  match p.data with
  | c :: _ => c == ':'
  | [] => false

/-- Segment-wise matching of a route pattern against a request path: a
parameter segment matches any segment, a literal segment matches itself. -/
def segMatch : List String → List String → Bool
  | [], [] => true
  | p :: ps, s :: ss => (paramSeg p || p == s) && segMatch ps ss
  | _, _ => false

/-- Whether a route pattern matches a request path. -/
def pathMatch (pat path : String) : Bool :=
  segMatch (pathSegs pat) (pathSegs path)

/-- Dispatch a request against the route table of backend/main.go: the
first route whose method and pattern match determines the handler. -/
def dispatch (m : Method) (path : String) : Option HandlerTag :=
  (routes.find? (fun r => r.1 == m && pathMatch r.2.1 path)).map (fun r => r.2.2)

/-- An inbound HTTP request, as seen by the middleware. -/
structure HttpRequest where
  method : Method
  path : String
deriving DecidableEq, Repr

/-- An HTTP response: status, headers, body. -/
structure HttpResponse where
  status : Nat
  headers : List (String × String)
  body : String
deriving DecidableEq, Repr

/-- The three headers set by the CORS middleware of backend/main.go,
lines 24-26. -/
def corsHeaders : List (String × String) :=
  [("Access-Control-Allow-Origin", "*"),
   ("Access-Control-Allow-Methods", "POST, GET, PUT, DELETE"),
   ("Access-Control-Allow-Headers", "Content-Type")]

/-- The CORS middleware of backend/main.go, lines 23-32: sets the three
headers on every response; a request with method OPTIONS is answered with
status 204 and aborted, so the next handler never runs. -/
def corsMiddleware (next : HttpRequest → HttpResponse) (req : HttpRequest) :
    HttpResponse :=
  if req.method = .options then
    ⟨204, corsHeaders, ""⟩
  else
    let r := next req
    ⟨r.status, corsHeaders ++ r.headers, r.body⟩

/-- Embedding provider used by the concrete scenarios: deterministic,
always available; a text embeds to the one-element vector of its length,
similarity is the product of the leading coordinates. -/
def envOk : Env :=
  ⟨fun t => .ok [Int.ofNat t.length], fun _ => .ok "generated answer",
   fun v w => v.headD 0 * w.headD 0, true⟩

/-- Environment whose embedding provider is down. -/
def envEmbedDown : Env :=
  ⟨fun _ => .error .ProviderUnavailable, fun _ => .ok "", fun _ _ => 0, true⟩

/-- Environment whose vector index provider is down. -/
def envIdxDown : Env :=
  ⟨fun t => .ok [Int.ofNat t.length], fun _ => .ok "", fun _ _ => 0, false⟩

/-- The empty store. -/
def s0 : StoreState := ⟨[], [], 0⟩

/-- A store holding one document with id 0 and content "alpha". -/
def s1 : StoreState :=
  ⟨[⟨0, "alpha", [], [5], 0, 0⟩], [⟨0, [5], "alpha", []⟩], 1⟩

/-- Concrete configuration: default topK 5, threshold 0, prompt budget 8. -/
def cfg0 : Config := ⟨5, 0, 8⟩

/-- A stub route handler. -/
def handlerStub : HttpRequest → HttpResponse := fun _ => ⟨200, [], "ok"⟩

/-- Matches used in the truncation scenario: content lengths 6, 2 and 3
against a budget of 8. -/
def wMatches : List RetrievedMatch :=
  [⟨1, "abcdef", [], 9⟩, ⟨2, "gh", [], 5⟩, ⟨3, "xyz", [], 3⟩]

lemma find_filter_not {α : Type} (p : α → Bool) (l : List α) :
    (l.filter (fun a => !(p a))).find? p = none := by
  induction l with
  | nil => rfl
  | cons a t ih =>
    by_cases h : p a
    · simp [List.filter_cons, h, ih]
    · simp only [Bool.not_eq_true] at h
      simp [List.filter_cons, h, List.find?_cons, ih]

lemma countP_filter_not {α : Type} (p : α → Bool) (l : List α) :
    (l.filter (fun a => !(p a))).countP p = 0 := by
  induction l with
  | nil => rfl
  | cons a t ih =>
    by_cases h : p a
    · simp [List.filter_cons, h, ih]
    · simp only [Bool.not_eq_true] at h
      simp [List.filter_cons, h, List.countP_cons, ih]

/-- C5: Retrieval is a deterministic function of the query and the index
state: two `retrieve` calls against an unchanged index with an identical
query return identical ordered match lists. -/
theorem retrieve_deterministic (e : Env) (cfg : Config) (idx1 idx2 : List Entry)
    (q1 q2 : Query) (hidx : idx1 = idx2) (hq : q1 = q2) :
    retrieve e cfg idx1 q1 = retrieve e cfg idx2 q2 := by
  rw [hidx, hq]

/-- Witness for C5 at a concrete index and query. -/
theorem retrieve_deterministic_witness :
    retrieve envOk cfg0 [⟨1, [2], "aa", []⟩] ⟨"q", none, none, none⟩ =
    retrieve envOk cfg0 [⟨1, [2], "aa", []⟩] ⟨"q", none, none, none⟩ :=
  retrieve_deterministic envOk cfg0 [⟨1, [2], "aa", []⟩] [⟨1, [2], "aa", []⟩]
    ⟨"q", none, none, none⟩ ⟨"q", none, none, none⟩ rfl rfl

/-- C7: answering with an empty match list returns the canned
insufficient-context answer with empty sources and performs no
generation-model call (the event trace is empty). -/
theorem answer_empty_matches (e : Env) (cfg : Config) (q : String) :
    answer e cfg q [] = (.ok ⟨cannedAnswer, []⟩, []) := rfl

/-- C9: the router of backend/main.go exposes exactly the six routes of the
spec, each dispatched to the corresponding handler, and no other
method/path combination is routed. -/
theorem routes_exact :
    routes.length = 6 ∧
    dispatch .post "/documents" = some .createDocument ∧
    dispatch .get "/documents/42" = some .getDocument ∧
    dispatch .put "/documents/42" = some .updateDocument ∧
    dispatch .delete "/documents/42" = some .deleteDocument ∧
    dispatch .get "/documents" = some .listDocuments ∧
    dispatch .post "/search" = some .search ∧
    dispatch .options "/documents" = none ∧
    dispatch .get "/search" = none ∧
    dispatch .post "/documents/42" = none ∧
    dispatch .delete "/documents" = none := by
  decide

/-- C10: the CORS middleware of backend/main.go sets the three
Access-Control headers on the response of every request, and answers every
OPTIONS request with status 204 without invoking the next handler (the
response does not depend on the handler). -/
theorem cors_middleware_spec (next : HttpRequest → HttpResponse)
    (req : HttpRequest) :
    (∀ kv, kv ∈ corsHeaders → kv ∈ (corsMiddleware next req).headers) ∧
    (req.method = .options →
      (corsMiddleware next req).status = 204 ∧
      ∀ other : HttpRequest → HttpResponse,
        corsMiddleware next req = corsMiddleware other req) := by
  constructor
  · intro kv hkv
    unfold corsMiddleware
    split
    · exact hkv
    · exact List.mem_append_left _ hkv
  · intro h
    unfold corsMiddleware
    rw [if_pos h]
    exact ⟨rfl, fun other => by rw [if_pos h]⟩

/-- Witness for C10 at a concrete OPTIONS request. -/
theorem cors_middleware_spec_witness :
    ("Access-Control-Allow-Origin", "*") ∈
      (corsMiddleware handlerStub ⟨.options, "/documents"⟩).headers ∧
    (corsMiddleware handlerStub ⟨.options, "/documents"⟩).status = 204 ∧
    corsMiddleware handlerStub ⟨.options, "/documents"⟩ =
      corsMiddleware (fun _ => ⟨500, [], ""⟩) ⟨.options, "/documents"⟩ :=
  ⟨(cors_middleware_spec handlerStub ⟨.options, "/documents"⟩).1 _ (by decide),
   ((cors_middleware_spec handlerStub ⟨.options, "/documents"⟩).2 rfl).1,
   ((cors_middleware_spec handlerStub ⟨.options, "/documents"⟩).2 rfl).2 _⟩

lemma create_error_state (e : Env) (s : StoreState) (c : String)
    (md : List (String × String)) (now : Nat) :
    ∀ err, (create e s c md now).out = .error err → (create e s c md now).state = s := by
  intro err h
  by_cases hc : c = ""
  · simp [create, hc]
  · rcases he : e.embed c with e2 | v
    · simp [create, hc, he]
    · rcases hu : indexUpsert e s.index s.nextId v c md with e3 | idx
      · simp [create, hc, he, hu]
      · exfalso
        simp [create, hc, he, hu] at h

lemma create_embed_error (e : Env) (s : StoreState) (c : String)
    (md : List (String × String)) (now : Nat) :
    ∀ err, c ≠ "" → e.embed c = .error err →
      (create e s c md now).out = .error err ∧
      (create e s c md now).events = [.embedCall c] := by
  intro err hne he
  simp [create, hne, he]

lemma create_upsert_after_embed (e : Env) (s : StoreState) (c : String)
    (md : List (String × String)) (now : Nat) :
    ∀ id, Event.upsertCall id ∈ (create e s c md now).events →
      ∃ v, e.embed c = .ok v := by
  intro id hmem
  by_cases hc : c = ""
  · simp [create, hc] at hmem
  · rcases he : e.embed c with e2 | v
    · simp [create, hc, he] at hmem
    · exact ⟨v, rfl⟩

lemma create_index_down (e : Env) (s : StoreState) (c : String)
    (md : List (String × String)) (now : Nat) :
    ∀ v, c ≠ "" → e.embed c = .ok v → e.indexUp = false →
      (create e s c md now).out = .error .IndexUnavailable ∧
      (create e s c md now).state = s := by
  intro v hne he hdown
  simp [create, hne, he, indexUpsert, hdown]

/-- C2: create is atomic with respect to failures: on any error the store
and index are unchanged and the underlying error is returned; an embedding
failure is returned before any upsert is attempted; the upsert is attempted
only after embedding has succeeded; an upsert failure likewise leaves the
state unchanged. -/
theorem create_failure_atomicity (e : Env) (s : StoreState) (c : String)
    (md : List (String × String)) (now : Nat) :
    (∀ err, (create e s c md now).out = .error err → (create e s c md now).state = s) ∧
    (∀ err, c ≠ "" → e.embed c = .error err →
      (create e s c md now).out = .error err ∧
      (create e s c md now).events = [.embedCall c]) ∧
    (∀ id, Event.upsertCall id ∈ (create e s c md now).events →
      ∃ v, e.embed c = .ok v) ∧
    (∀ v, c ≠ "" → e.embed c = .ok v → e.indexUp = false →
      (create e s c md now).out = .error .IndexUnavailable ∧
      (create e s c md now).state = s) :=
  ⟨create_error_state e s c md now, create_embed_error e s c md now,
   create_upsert_after_embed e s c md now, create_index_down e s c md now⟩

/-- Witness for C2: a failing embedding provider and a failing index
provider each leave the empty store unchanged with the underlying error. -/
theorem create_failure_atomicity_witness :
    ((create envEmbedDown s0 "alpha" [] 0).out = .error .ProviderUnavailable ∧
      (create envEmbedDown s0 "alpha" [] 0).events = [.embedCall "alpha"]) ∧
    (create envEmbedDown s0 "alpha" [] 0).state = s0 ∧
    ((create envIdxDown s0 "alpha" [] 0).out = .error .IndexUnavailable ∧
      (create envIdxDown s0 "alpha" [] 0).state = s0) :=
  ⟨(create_failure_atomicity envEmbedDown s0 "alpha" [] 0).2.1 .ProviderUnavailable
      (by decide) rfl,
   (create_failure_atomicity envEmbedDown s0 "alpha" [] 0).1 .ProviderUnavailable rfl,
   (create_failure_atomicity envIdxDown s0 "alpha" [] 0).2.2.2 [5] (by decide) rfl rfl⟩

lemma create_ok_sync (e : Env) (s : StoreState) (c : String)
    (md : List (String × String)) (now : Nat) (d : Document) (s2 : StoreState)
    (ev : List Event) (h : create e s c md now = ⟨.ok d, s2, ev⟩) :
    SyncAt e s2 d := by
  by_cases hc : c = ""
  · simp [create, hc] at h
  · rcases he : e.embed c with e2 | v
    · simp [create, hc, he] at h
    · by_cases hup : e.indexUp
      · simp [create, hc, he, indexUpsert, hup] at h
        obtain ⟨hd, hs, hev⟩ := h
        subst hd
        subst hs
        refine ⟨?_, ?_, he⟩
        · simp [indexGet, List.find?]
        · simp [List.countP_cons, countP_filter_not]
      · simp [create, hc, he, indexUpsert, hup] at h

lemma update_ok_sync (e : Env) (s : StoreState) (id : Nat) (oc : Option String)
    (om : Option (List (String × String))) (now : Nat) (d : Document)
    (s2 : StoreState) (ev : List Event) (hinv : DocsOk e s)
    (h : update e s id oc om now = ⟨.ok d, s2, ev⟩) :
    SyncAt e s2 d := by
  rcases hg : storeGet s id with _ | d0
  · simp [update, hg] at h
  · have hmem : d0 ∈ s.docs :=
      List.mem_of_find?_eq_some (by simpa [storeGet] using hg)
    by_cases hceq : oc.getD d0.content = d0.content
    · by_cases hup : e.indexUp
      · simp [update, hg, hceq, indexUpsert, hup] at h
        obtain ⟨hd, hs, hev⟩ := h
        subst hd
        subst hs
        refine ⟨?_, ?_, hinv d0 hmem⟩
        · simp [indexGet, List.find?]
        · simp [List.countP_cons, countP_filter_not]
      · simp [update, hg, hceq, indexUpsert, hup] at h
    · rcases he : e.embed (oc.getD d0.content) with e2 | v
      · simp [update, hg, hceq, he] at h
      · by_cases hup : e.indexUp
        · simp [update, hg, hceq, he, indexUpsert, hup] at h
          obtain ⟨hd, hs, hev⟩ := h
          subst hd
          subst hs
          refine ⟨?_, ?_, he⟩
          · simp [indexGet, List.find?]
          · simp [List.countP_cons, countP_filter_not]
        · simp [update, hg, hceq, he, indexUpsert, hup] at h

/-- C1: after a successful create or update, the vector index holds exactly
one entry for the document's id, and that entry's vector is the embedding
of the document's current content, with content and metadata matching the
document. -/
theorem docStore_index_consistency (e : Env) (s : StoreState) (c : String)
    (md : List (String × String)) (id : Nat) (oc : Option String)
    (om : Option (List (String × String))) (now : Nat) (hinv : DocsOk e s) :
    (∀ d s2 ev, create e s c md now = ⟨.ok d, s2, ev⟩ → SyncAt e s2 d) ∧
    (∀ d s2 ev, update e s id oc om now = ⟨.ok d, s2, ev⟩ → SyncAt e s2 d) :=
  ⟨fun d s2 ev h => create_ok_sync e s c md now d s2 ev h,
   fun d s2 ev h => update_ok_sync e s id oc om now d s2 ev hinv h⟩

/-- Witness for C1: creating "alpha" in the empty store yields a store
whose index is synchronized with the new document. -/
theorem docStore_index_consistency_witness :
    SyncAt envOk ⟨[⟨0, "alpha", [], [5], 0, 0⟩], [⟨0, [5], "alpha", []⟩], 1⟩
      ⟨0, "alpha", [], [5], 0, 0⟩ :=
  (docStore_index_consistency envOk s0 "alpha" [] 0 none none 0
      (fun d hd => absurd hd (List.not_mem_nil d))).1
    ⟨0, "alpha", [], [5], 0, 0⟩
    ⟨[⟨0, "alpha", [], [5], 0, 0⟩], [⟨0, [5], "alpha", []⟩], 1⟩
    [.embedCall "alpha", .upsertCall 0] rfl

/-- Counterexample for C3: in the one-document store, deleting id 0
succeeds, but a second delete of the same id fails with NotFound, because
the document-store delete of an unknown id is specified to fail (section
4.3); only the vector-index delete is idempotent. -/
theorem delete_second_not_ok :
    (deleteDoc envOk s1 0).out = .ok () ∧
    (deleteDoc envOk (deleteDoc envOk s1 0).state 0).out = .error .NotFound :=
  ⟨rfl, rfl⟩

/-- C3 (amended): after a successful delete, both the document store and
the vector index report NotFound for the id, and a second delete of the
same id fails with NotFound. -/
theorem delete_postconditions (e : Env) (s : StoreState) (id : Nat)
    (h : (deleteDoc e s id).out = .ok ()) :
    storeGet (deleteDoc e s id).state id = none ∧
    indexGet (deleteDoc e s id).state.index id = none ∧
    (deleteDoc e (deleteDoc e s id).state id).out = .error .NotFound := by
  rcases hg : storeGet s id with _ | d0
  · simp [deleteDoc, hg] at h
  · by_cases hup : e.indexUp
    · have hst : (deleteDoc e s id).state =
        ⟨s.docs.filter (fun d => !(d.id == id)),
         s.index.filter (fun en => !(en.id == id)), s.nextId⟩ := by
        simp [deleteDoc, hg, indexDelete, hup]
      have h1 : storeGet (deleteDoc e s id).state id = none := by
        rw [hst]
        exact find_filter_not _ _
      have h2 : ∀ s2 : StoreState, storeGet s2 id = none →
          (deleteDoc e s2 id).out = .error .NotFound := by
        intro s2 hnone
        simp [deleteDoc, hnone]
      refine ⟨h1, ?_, h2 _ h1⟩
      rw [hst]
      exact find_filter_not _ _
    · simp [deleteDoc, hg, indexDelete, hup] at h

/-- Witness for C3 (amended) on the one-document store. -/
theorem delete_postconditions_witness :
    storeGet (deleteDoc envOk s1 0).state 0 = none ∧
    indexGet (deleteDoc envOk s1 0).state.index 0 = none ∧
    (deleteDoc envOk (deleteDoc envOk s1 0).state 0).out = .error .NotFound :=
  delete_postconditions envOk s1 0 rfl

/-- C4: an update that leaves the content unchanged makes no embedding
call, and on success the document keeps its existing embedding vector,
re-upserted into the index with the same vector, the same content and the
new metadata. -/
theorem update_metadata_only (e : Env) (s : StoreState) (id : Nat)
    (d : Document) (oc : Option String) (m : List (String × String))
    (now : Nat) (hd : storeGet s id = some d)
    (hc : oc.getD d.content = d.content) :
    (∀ t, Event.embedCall t ∉ (update e s id oc (some m) now).events) ∧
    (∀ d2 s2 ev, update e s id oc (some m) now = ⟨.ok d2, s2, ev⟩ →
      d2.embedding = d.embedding ∧
      indexGet s2.index d2.id = some ⟨d2.id, d.embedding, d.content, m⟩) := by
  constructor
  · intro t hmem
    by_cases hup : e.indexUp
    · simp [update, hd, hc, indexUpsert, hup] at hmem
    · simp [update, hd, hc, indexUpsert, hup] at hmem
  · intro d2 s2 ev h
    by_cases hup : e.indexUp
    · simp [update, hd, hc, indexUpsert, hup] at h
      obtain ⟨h1, h2, h3⟩ := h
      subst h1
      subst h2
      refine ⟨rfl, ?_⟩
      simp [indexGet, List.find?]
    · simp [update, hd, hc, indexUpsert, hup] at h

/-- Witness for C4: a metadata-only update of the one-document store keeps
the vector [5] and stores the new metadata. -/
theorem update_metadata_only_witness :
    Event.embedCall "alpha" ∉ (update envOk s1 0 none (some [("k", "v")]) 1).events ∧
    indexGet [⟨0, [5], "alpha", [("k", "v")]⟩] 0 =
      some ⟨0, [5], "alpha", [("k", "v")]⟩ :=
  ⟨(update_metadata_only envOk s1 0 ⟨0, "alpha", [], [5], 0, 0⟩ none
      [("k", "v")] 1 rfl rfl).1 "alpha",
   ((update_metadata_only envOk s1 0 ⟨0, "alpha", [], [5], 0, 0⟩ none
      [("k", "v")] 1 rfl rfl).2
     ⟨0, "alpha", [("k", "v")], [5], 0, 1⟩
     ⟨[⟨0, "alpha", [("k", "v")], [5], 0, 1⟩], [⟨0, [5], "alpha", [("k", "v")]⟩], 1⟩
     [.upsertCall 0] rfl).2⟩

/-- C6: every match returned by retrieve scores at least the effective
relevance threshold, and when the providers are reachable and topK is at
least 1 the call returns a list (possibly empty), never an error, even if
thresholding removes every match. -/
theorem retrieve_threshold (e : Env) (cfg : Config) (idx : List Entry)
    (q : Query) :
    (∀ ms m, retrieve e cfg idx q = .ok ms → m ∈ ms →
      effThreshold cfg q ≤ m.score) ∧
    (∀ v, e.embed q.text = .ok v → e.indexUp = true → 1 ≤ effTopK cfg q →
      ∃ ms, retrieve e cfg idx q = .ok ms) := by
  constructor
  · intro ms m hok hm
    by_cases hk : effTopK cfg q < 1
    · simp [retrieve, hk] at hok
    · rcases he : e.embed q.text with e2 | v
      · simp [retrieve, hk, he] at hok
      · by_cases hup : e.indexUp
        · simp [retrieve, hk, he, indexQuery, hup] at hok
          subst hok
          rw [List.mem_filter] at hm
          exact of_decide_eq_true hm.2
        · simp [retrieve, hk, he, indexQuery, hup] at hok
  · intro v hv hup hk
    have hnk : ¬ effTopK cfg q < 1 := by omega
    refine ⟨(List.take (effTopK cfg q)
      (sortRanked ((idx.filter (fun en => matchesFilter q.filter en.metadata)).map
        (fun en => ⟨en.id, en.content, en.metadata, e.score v en.vector⟩)))).filter
      (fun m => effThreshold cfg q ≤ m.score), ?_⟩
    simp [retrieve, hnk, hv, indexQuery, hup]

/-- Witness for C6: with threshold 0 the match scoring -3 is dropped and
the match scoring 2 is returned; the emptied-or-not result is a list, not
an error. -/
theorem retrieve_threshold_witness :
    (0 : Int) ≤ (2 : Int) ∧
    ∃ ms, retrieve envOk cfg0 [⟨1, [2], "aa", []⟩, ⟨2, [-3], "bb", []⟩]
      ⟨"q", none, none, none⟩ = .ok ms :=
  ⟨(retrieve_threshold envOk cfg0 [⟨1, [2], "aa", []⟩, ⟨2, [-3], "bb", []⟩]
      ⟨"q", none, none, none⟩).1 [⟨1, "aa", [], 2⟩] ⟨1, "aa", [], 2⟩ (by rfl)
      (by simp),
   (retrieve_threshold envOk cfg0 [⟨1, [2], "aa", []⟩, ⟨2, [-3], "bb", []⟩]
      ⟨"q", none, none, none⟩).2 [1] rfl rfl (by decide)⟩

lemma truncate_len_le (b : Nat) (ms : List RetrievedMatch) :
    contentLen (truncateMatches b ms) ≤ b := by
  induction ms generalizing b with
  | nil => simp [truncateMatches, contentLen]
  | cons m rest ih =>
    by_cases h : m.content.length ≤ b
    · have hr := ih (b - m.content.length)
      simp [truncateMatches, h, contentLen] at hr ⊢
      omega
    · simp [truncateMatches, h, contentLen]

lemma truncate_initial (b : Nat) (ms : List RetrievedMatch) :
    ∃ rest, truncateMatches b ms ++ rest = ms := by
  induction ms generalizing b with
  | nil => exact ⟨[], rfl⟩
  | cons m rest ih =>
    by_cases h : m.content.length ≤ b
    · obtain ⟨r, hr⟩ := ih (b - m.content.length)
      exact ⟨r, by simp [truncateMatches, h, hr]⟩
    · exact ⟨m :: rest, by simp [truncateMatches, h]⟩

/-- C8: the synthesizer includes match contents in rank order within the
prompt budget, dropping lowest-ranked matches first (the included matches
are an initial segment of the ranked list and their cumulative content
length fits the budget), and the answer's sources are exactly the
documentIds of the matches that survived truncation, in rank order. -/
theorem answer_truncation_sources (e : Env) (cfg : Config) (q : String)
    (ms : List RetrievedMatch) (a : Answer) (ev : List Event)
    (h : answer e cfg q ms = (.ok a, ev)) :
    contentLen (truncateMatches cfg.promptBudget ms) ≤ cfg.promptBudget ∧
    (∃ rest, truncateMatches cfg.promptBudget ms ++ rest = ms) ∧
    a.sources = (truncateMatches cfg.promptBudget ms).map (fun m => m.documentId) := by
  refine ⟨truncate_len_le _ _, truncate_initial _ _, ?_⟩
  rcases ms with _ | ⟨m, rest⟩
  · simp [answer] at h
    obtain ⟨h1, h2⟩ := h
    subst h1
    simp [truncateMatches]
  · rcases hg : e.generate (buildPrompt q (truncateMatches cfg.promptBudget (m :: rest)))
      with e2 | t
    · simp [answer, hg] at h
    · simp [answer, hg] at h
      obtain ⟨h1, h2⟩ := h
      subst h1
      simp

/-- Witness for C8: budget 8 over contents of lengths 6, 2 and 3 keeps the
first two matches and reports sources [1, 2]. -/
theorem answer_truncation_sources_witness :
    contentLen (truncateMatches cfg0.promptBudget wMatches) ≤ cfg0.promptBudget ∧
    (∃ rest, truncateMatches cfg0.promptBudget wMatches ++ rest = wMatches) ∧
    (⟨"generated answer", [1, 2]⟩ : Answer).sources =
      (truncateMatches cfg0.promptBudget wMatches).map (fun m => m.documentId) :=
  answer_truncation_sources envOk cfg0 "q" wMatches ⟨"generated answer", [1, 2]⟩
    [Event.generateCall (buildPrompt "q" (truncateMatches cfg0.promptBudget wMatches))]
    rfl

end GoRag
